import Mathlib

/-!
Verification of the pricetracker-backend core pipeline: the merge engine
(Item.UpdateWith in internal/model/item.go), the notification eligibility
function (shouldNotify in internal/server/fetcher.go), the per-item scheduler
pipeline (fetchData in internal/server/fetcher.go), the history ledger
(internal/database/itemHistory.go and the itemAdd / itemCheck handlers), and
the subscription-store operations (internal/database/user.go).

Go machine integers (prices, stock, counts) are modelled as Int; timestamps
(primitive.DateTime) as Nat, with the current wall-clock time passed in as an
explicit parameter; Mongo ObjectIDs as Nat; fallible store and network calls
as Option-valued inputs to the pipeline (none = the call returned an error).
The rating field is a Go float64 that the core only ever copies verbatim and
never computes with, so it is modelled as an uninterpreted integer scalar.
-/

namespace PriceTracker

/-- Mirror of model.Item (internal/model/item.go). -/
structure Item where
  id : Nat
  site : String
  merchantID : String
  productID : String
  parentID : String
  variationID : String
  url : String
  name : String
  price : Int
  priceLastChangedAt : Nat
  priceHistoryPrevious : Int
  priceHistoryHighest : Int
  priceHistoryLowest : Int
  stock : Int
  imageURL : String
  description : String
  rating : Int
  sold : Int
  createdAt : Nat
  updatedAt : Nat
deriving Repr, DecidableEq

/-- Mirror of Item.UpdateWith (internal/model/item.go lines 49-67).
The two time.Now() calls inside one invocation are modelled as the single
parameter now.  The two inner ifs in the source read the extrema fields,
which the earlier assignments in the same branch do not touch, so the
simultaneous record update below is field-for-field the same assignment
sequence. -/
def Item.updateWith (i : Item) (new : Item) (now : Nat) : Item :=
  let i1 :=
    if i.price ≠ new.price then
      { i with
        priceHistoryPrevious := i.price
        price := new.price
        priceLastChangedAt := now
        priceHistoryHighest :=
          if i.priceHistoryHighest < new.price then new.price else i.priceHistoryHighest
        priceHistoryLowest :=
          if i.priceHistoryLowest > new.price then new.price else i.priceHistoryLowest }
    else i
  { i1 with
    stock := new.stock
    imageURL := new.imageURL
    description := new.description
    rating := new.rating
    sold := new.sold
    updatedAt := now }

/-- Initialization of a brand-new Item from a fetched item, as done by the
itemAdd insert branch (internal/server/itemHandlers.go: i := ecommerceItem;
i.PriceHistoryHighest = i.Price; i.PriceHistoryLowest = i.Price). -/
def itemCreateInit (fetched : Item) : Item :=
  { fetched with
    priceHistoryHighest := fetched.price
    priceHistoryLowest := fetched.price }

/-- The spec invariant: priceHistoryLowest <= price <= priceHistoryHighest. -/
def extremaInvariant (i : Item) : Prop :=
  i.priceHistoryLowest ≤ i.price ∧ i.price ≤ i.priceHistoryHighest

instance (i : Item) : Decidable (extremaInvariant i) := by
  unfold extremaInvariant; infer_instance

/-- A finite sequence of merges: fold UpdateWith over fetched items with
their fetch times. -/
def mergeSeq (i : Item) (ms : List (Item × Nat)) : Item :=
  ms.foldl (fun acc m => acc.updateWith m.1 m.2) i

theorem updateWith_preserves_extrema (i new : Item) (now : Nat)
    (h : extremaInvariant i) : extremaInvariant (i.updateWith new now) := by
  rcases h with ⟨hlo, hhi⟩
  unfold Item.updateWith extremaInvariant
  by_cases hp : i.price = new.price
  · simp [hp]
    omega
  · simp [hp]
    constructor <;> split <;> omega

theorem mergeSeq_preserves_extrema (ms : List (Item × Nat)) (i : Item)
    (h : extremaInvariant i) : extremaInvariant (mergeSeq i ms) := by
  induction ms generalizing i with
  | nil => exact h
  | cons m rest ih =>
      exact ih _ (updateWith_preserves_extrema i m.1 m.2 h)

theorem itemCreateInit_extrema (f : Item) : extremaInvariant (itemCreateInit f) := by
  unfold itemCreateInit extremaInvariant
  simp

/-- Claim C1: for every Item whose price-history extrema are initialized to
its first observed price at creation, and for every finite sequence of
UpdateWith merges with arbitrary fetched items, after each merge (that is,
after every prefix of the sequence) the Item satisfies
priceHistoryLowest <= price <= priceHistoryHighest. -/
theorem merge_extrema_invariant (f : Item) (ms : List (Item × Nat)) (k : Nat) :
    extremaInvariant (mergeSeq (itemCreateInit f) (ms.take k)) :=
  mergeSeq_preserves_extrema (ms.take k) (itemCreateInit f) (itemCreateInit_extrema f)

/-- Claim C2: postcondition of one UpdateWith merge.  When the fetched price
differs from the current price: the superseded price is recorded in
priceHistoryPrevious, the price becomes the fetched price, priceLastChangedAt
is set to now, the highest is raised to the fetched price exactly when the
fetched price exceeds it, and the lowest is lowered exactly when the fetched
price is below it.  In all cases stock, imageURL, description, rating, sold
and updatedAt are overwritten with the fetched values / now. -/
theorem updateWith_postcondition (cur new : Item) (t : Nat) :
    (new.price ≠ cur.price →
      (cur.updateWith new t).priceHistoryPrevious = cur.price ∧
      (cur.updateWith new t).price = new.price ∧
      (cur.updateWith new t).priceLastChangedAt = t ∧
      (cur.updateWith new t).priceHistoryHighest =
        (if cur.priceHistoryHighest < new.price then new.price else cur.priceHistoryHighest) ∧
      (cur.updateWith new t).priceHistoryLowest =
        (if cur.priceHistoryLowest > new.price then new.price else cur.priceHistoryLowest)) ∧
    (cur.updateWith new t).stock = new.stock ∧
    (cur.updateWith new t).imageURL = new.imageURL ∧
    (cur.updateWith new t).description = new.description ∧
    (cur.updateWith new t).rating = new.rating ∧
    (cur.updateWith new t).sold = new.sold ∧
    (cur.updateWith new t).updatedAt = t := by
  unfold Item.updateWith
  by_cases hp : cur.price = new.price
  · simp [hp]
  · have hp' : ¬ new.price = cur.price := fun h => hp h.symm
    simp [hp, hp']

/-- A concrete Item used by witnesses: price 100000 with both extrema
initialized to 100000, mirroring the scenario in the spec. -/
def scenarioItem : Item :=
  { id := 1, site := "Shopee", merchantID := "m1", productID := "p1",
    parentID := "", variationID := "", url := "https://shopee.co.id/x",
    name := "Widget", price := 100000, priceLastChangedAt := 0,
    priceHistoryPrevious := 0, priceHistoryHighest := 100000,
    priceHistoryLowest := 100000, stock := 5, imageURL := "",
    description := "", rating := 0, sold := 0, createdAt := 0, updatedAt := 0 }

/-- The fetched item of the spec scenario: price 80000, stock 3. -/
def scenarioFetch : Item :=
  { scenarioItem with price := 80000, stock := 3 }

/-- Witness for C2: at the spec scenario (item at 100000 with both extrema
100000, fetch at 80000 and stock 3) the merge yields lowest 80000, highest
100000, stock 3 and priceLastChangedAt = the merge time. -/
theorem updateWith_postcondition_witness :
    (scenarioItem.updateWith scenarioFetch 7).priceHistoryLowest = 80000 ∧
    (scenarioItem.updateWith scenarioFetch 7).priceHistoryHighest = 100000 ∧
    (scenarioItem.updateWith scenarioFetch 7).stock = 3 ∧
    (scenarioItem.updateWith scenarioFetch 7).priceLastChangedAt = 7 := by
  have h := updateWith_postcondition scenarioItem scenarioFetch 7
  have h1 := h.1 (by decide)
  exact ⟨h1.2.2.2.2.trans (by decide), (h1.2.2.2.1).trans (by decide),
    h.2.1.trans (by decide), h1.2.2.1⟩

/-- Mirror of model.TrackedItem (internal/model, src/unnamed/part_013). -/
structure TrackedItem where
  itemID : Nat
  priceLowerThreshold : Int
  notificationEnabled : Bool
  notificationCount : Int
  notificationCountTotal : Int
  lastNotifiedAt : Nat
  createdAt : Nat
  updatedAt : Nat
deriving Repr, DecidableEq

/-- Mirror of model.Device (src/unnamed/part_013); only the fields the
pipeline reads. -/
structure Device where
  deviceID : String
  fcmToken : String
deriving Repr, DecidableEq

/-- Mirror of shouldNotify (internal/server/fetcher.go lines 149-156):
if ti.NotificationEnabled and itemPrice <= ti.PriceLowerThreshold and
itemStock > 0 then true else false. -/
def shouldNotify (ti : TrackedItem) (itemPrice : Int) (itemStock : Int) : Bool :=
  if ti.notificationEnabled ∧ itemPrice ≤ ti.priceLowerThreshold ∧ itemStock > 0 then
    true
  else
    false

/-- A TrackedItem with the given enabled flag and threshold; counters and
timestamps zero.  Used to state the concrete eligibility examples. -/
def tiExample (enabled : Bool) (threshold : Int) : TrackedItem :=
  { itemID := 1, priceLowerThreshold := threshold, notificationEnabled := enabled,
    notificationCount := 0, notificationCountTotal := 0, lastNotifiedAt := 0,
    createdAt := 0, updatedAt := 0 }

/-- Claim C3: eligibility is a deterministic function of exactly its three
inputs: it returns true iff the subscription is enabled, the price is at or
below the threshold, and the stock is positive; it depends on no field of
the TrackedItem other than the enabled flag and the threshold; and the three
concrete examples from the spec evaluate as stated. -/
theorem shouldNotify_spec :
    (∀ (ti : TrackedItem) (p s : Int),
      shouldNotify ti p s = true ↔
        (ti.notificationEnabled = true ∧ p ≤ ti.priceLowerThreshold ∧ s > 0)) ∧
    (∀ (ti ti' : TrackedItem) (p s : Int),
      ti.notificationEnabled = ti'.notificationEnabled →
      ti.priceLowerThreshold = ti'.priceLowerThreshold →
      shouldNotify ti p s = shouldNotify ti' p s) ∧
    shouldNotify (tiExample true 100000) 90000 5 = true ∧
    shouldNotify (tiExample true 100000) 90000 0 = false ∧
    shouldNotify (tiExample false 100000) 1 5 = false := by
  refine ⟨?_, ?_, by decide, by decide, by decide⟩
  · intro ti p s
    unfold shouldNotify
    split <;> simp_all
  · intro ti ti' p s he ht
    unfold shouldNotify
    rw [he, ht]

/-- Witness for C3: the purity conjunct applied at two TrackedItems agreeing
on the enabled flag and threshold but differing in every other field. -/
theorem shouldNotify_spec_witness :
    shouldNotify (tiExample true 100000) 90000 5 =
      shouldNotify { tiExample true 100000 with
        itemID := 9, notificationCount := 4, notificationCountTotal := 8,
        lastNotifiedAt := 3, createdAt := 2, updatedAt := 6 } 90000 5 :=
  shouldNotify_spec.2.1 _ _ 90000 5 (by decide) (by decide)

/-- One element of the result of UserDeviceFCMTokensFindByTrackedItem
(internal/database/user.go lines 41-54): a User projected to its matching
tracked_items element(s) and its devices with their fcm_token fields. -/
structure UserSubs where
  id : Nat
  trackedItems : List TrackedItem
  devices : List Device
deriving Repr, DecidableEq

/-- The non-empty FCM tokens of a user, in device order, as collected by the
inner device loop of fetchData (internal/server/fetcher.go lines 88-93). -/
def userTokens (u : UserSubs) : List String :=
  (u.devices.filter (fun d => d.fcmToken ≠ "")).map Device.fcmToken

/-- The guard of the fetchData user loop (internal/server/fetcher.go line
86): len(u.TrackedItems) > 0 and shouldNotify of the first tracked_items
element. -/
def userEligible (u : UserSubs) (p s : Int) : Bool :=
  match u.trackedItems with
  | [] => false
  | ti :: _ => shouldNotify ti p s

/-- The user loop of fetchData (internal/server/fetcher.go lines 83-98):
for each returned user, if it has a tracked_items element and shouldNotify
holds of the first one, append the non-empty tokens of its devices to the
token batch, and append the user id to notifiedUserIDs exactly when at
least one non-empty token was appended. -/
def collectNotify : List UserSubs → Int → Int → List Nat × List String
  | [], _, _ => ([], [])
  | u :: rest, p, s =>
    let acc := collectNotify rest p s
    if userEligible u p s then
      if userTokens u = [] then acc
      else (u.id :: acc.1, userTokens u ++ acc.2)
    else acc

/-- Mirror of client.FCMSendResponse: the per-batch success / failure counts. -/
structure FCMResponse where
  success : Int
  failure : Int
deriving Repr, DecidableEq

/-- The environment of one iteration of the fetchData item loop, after a
successful provider fetch: the fetched item and the outcomes the external
collaborators would return (none = the call returned an error). -/
structure ItemEnv where
  fetched : Item
  itemUpdateErr : Bool
  historyInsertErr : Bool
  usersResult : Option (List UserSubs)
  fcmResult : Option FCMResponse
  incrementResult : Option Int
deriving Repr, DecidableEq

/-- The observable effects of one iteration of the fetchData item loop. -/
structure Effects where
  updatedItem : Item
  historyAppended : Bool
  subsLookup : Bool
  notifiedUserIDs : List Nat
  fcmTokens : List String
  notifierCalled : Bool
  incrementAttempted : Bool
  incremented : Bool
  mismatchLogged : Bool
deriving Repr, DecidableEq

/-- Mirror of one iteration of the fetchData item loop
(internal/server/fetcher.go lines 52-143), from the point where the provider
fetch has succeeded.  Store and notifier outcomes come from env; every error
branch in the source only logs and continues, which here means returning the
effects accumulated so far.  The ItemUpdate and ItemHistoryInsert errors are
logged without affecting control flow; the history record is persisted
exactly when the insert did not error. -/
def processItem (i : Item) (env : ItemEnv) (now : Nat) : Effects :=
  let updatedI := i.updateWith env.fetched now
  let base : Effects :=
    { updatedItem := updatedI
      historyAppended := !env.historyInsertErr
      subsLookup := false
      notifiedUserIDs := []
      fcmTokens := []
      notifierCalled := false
      incrementAttempted := false
      incremented := false
      mismatchLogged := false }
  if env.fetched.price ≠ i.price then
    if env.fetched.stock = 0 then base
    else
      match env.usersResult with
      | none => { base with subsLookup := true }
      | some us =>
        let col := collectNotify us env.fetched.price env.fetched.stock
        let b1 := { base with
          subsLookup := true, notifiedUserIDs := col.1, fcmTokens := col.2 }
        if col.1.length = 0 then b1
        else
          match env.fcmResult with
          | none => { b1 with notifierCalled := true }
          | some _ =>
            match env.incrementResult with
            | none => { b1 with notifierCalled := true, incrementAttempted := true }
            | some m =>
              { b1 with
                notifierCalled := true
                incrementAttempted := true
                incremented := true
                mismatchLogged := decide (m ≠ (col.1.length : Int)) }
  else base

/-- The fetchData loop over a batch of items: each item is processed
independently; every error branch inside one iteration ends in continue, so
no item aborts the rest of the batch. -/
def processBatch (batch : List (Item × ItemEnv)) (now : Nat) : List Effects :=
  batch.map (fun p => processItem p.1 p.2 now)

/-- Claim C4: in the per-item pipeline, the subscription store is read only
when the fetched price differs from the stored price and the fetched stock
is non-zero; an item with unchanged price, or with changed price but stock
zero, triggers no subscription lookup, no notification dispatch and no
counter increment. -/
theorem notify_gate_shortcircuit (i : Item) (env : ItemEnv) (now : Nat) :
    ((env.fetched.price = i.price ∨ env.fetched.stock = 0) →
      (processItem i env now).subsLookup = false ∧
      (processItem i env now).notifiedUserIDs = [] ∧
      (processItem i env now).fcmTokens = [] ∧
      (processItem i env now).notifierCalled = false ∧
      (processItem i env now).incrementAttempted = false ∧
      (processItem i env now).incremented = false) ∧
    ((processItem i env now).subsLookup = true →
      env.fetched.price ≠ i.price ∧ env.fetched.stock ≠ 0) := by
  obtain ⟨f, iu, hb, ur, fr, ir⟩ := env
  simp only [processItem]
  by_cases h1 : f.price = i.price
  · simp [h1]
  · by_cases h2 : f.stock = 0
    · simp [h1, h2]
    · simp only [h1, h2, ne_eq, not_false_iff, if_true, if_false, ite_true, ite_false]
      cases ur with
      | none => simp [h1, h2]
      | some us =>
        by_cases h3 : (collectNotify us f.price f.stock).1.length = 0
        · simp [h1, h2, h3]
        · cases fr with
          | none => simp [h1, h2, h3]
          | some r =>
            cases ir with
            | none => simp [h1, h2, h3]
            | some m => simp [h1, h2, h3]

/-- The environment of the spec scenario with stock zero: price dropped to
80000 but the fetched stock is 0. -/
def envStockZero : ItemEnv :=
  { fetched := { scenarioFetch with stock := 0 }
    itemUpdateErr := false
    historyInsertErr := false
    usersResult := some [{ id := 1, trackedItems := [tiExample true 100000],
                           devices := [{ deviceID := "d1", fcmToken := "t1" }] }]
    fcmResult := some { success := 1, failure := 0 }
    incrementResult := some 1 }

/-- Witness for C4: for the spec scenario with price dropped to 80000 but
stock 0, no subscription lookup, no dispatch and no increment occur. -/
theorem notify_gate_shortcircuit_witness :
    (processItem scenarioItem envStockZero 7).subsLookup = false ∧
    (processItem scenarioItem envStockZero 7).notifierCalled = false ∧
    (processItem scenarioItem envStockZero 7).incrementAttempted = false := by
  have h := (notify_gate_shortcircuit scenarioItem envStockZero 7).1 (Or.inr (by decide))
  exact ⟨h.1, h.2.2.2.1, h.2.2.2.2.1⟩

theorem processItem_historyInsertErr_indep (i f : Item) (iu b : Bool)
    (ur : Option (List UserSubs)) (fr : Option FCMResponse) (ir : Option Int)
    (now : Nat) :
    processItem i ⟨f, iu, b, ur, fr, ir⟩ now =
      { processItem i ⟨f, iu, false, ur, fr, ir⟩ now with historyAppended := !b } := by
  simp only [processItem]
  by_cases h1 : f.price = i.price
  · simp [h1]
  · by_cases h2 : f.stock = 0
    · simp [h1, h2]
    · simp only [h1, h2, ne_eq, not_false_iff, if_true, if_false, ite_true, ite_false]
      cases ur with
      | none => simp
      | some us =>
        by_cases h3 : (collectNotify us f.price f.stock).1.length = 0
        · simp [h3]
        · cases fr with
          | none => simp [h3]
          | some r =>
            cases ir with
            | none => simp [h3]
            | some m => simp [h3]

theorem processItem_notifierCalled_of_eligible (i : Item) (env : ItemEnv)
    (now : Nat) (us : List UserSubs) (hu : env.usersResult = some us)
    (hp : env.fetched.price ≠ i.price) (hs : env.fetched.stock ≠ 0)
    (hn : (collectNotify us env.fetched.price env.fetched.stock).1 ≠ []) :
    (processItem i env now).notifierCalled = true := by
  obtain ⟨f, iu, hb, ur, fr, ir⟩ := env
  simp only at hu hp hs hn
  subst hu
  simp only [processItem]
  have h3 : ¬ (collectNotify us f.price f.stock).1.length = 0 := by
    simpa [List.length_eq_zero] using hn
  simp only [hp, hs, ne_eq, not_false_iff, if_true, if_false, ite_true, ite_false, h3]
  cases fr with
  | none => simp [hp, hs, h3]
  | some r =>
    cases ir with
    | none => simp [hp, hs, h3]
    | some m => simp [hp, hs, h3]

/-- Claim C6: a History Store append failure never suppresses a
notification: the pipeline effects other than the persisted history record
are identical whether or not ItemHistoryInsert errored, and when the gate
passes, users are found and the eligible set is non-empty, the Notifier is
still called even though the history insert errored. -/
theorem history_append_failure_no_suppression (i : Item) (env : ItemEnv) (now : Nat) :
    ((processItem i { env with historyInsertErr := true } now).subsLookup =
        (processItem i { env with historyInsertErr := false } now).subsLookup ∧
      (processItem i { env with historyInsertErr := true } now).notifiedUserIDs =
        (processItem i { env with historyInsertErr := false } now).notifiedUserIDs ∧
      (processItem i { env with historyInsertErr := true } now).fcmTokens =
        (processItem i { env with historyInsertErr := false } now).fcmTokens ∧
      (processItem i { env with historyInsertErr := true } now).notifierCalled =
        (processItem i { env with historyInsertErr := false } now).notifierCalled ∧
      (processItem i { env with historyInsertErr := true } now).incrementAttempted =
        (processItem i { env with historyInsertErr := false } now).incrementAttempted ∧
      (processItem i { env with historyInsertErr := true } now).incremented =
        (processItem i { env with historyInsertErr := false } now).incremented ∧
      (processItem i { env with historyInsertErr := true } now).updatedItem =
        (processItem i { env with historyInsertErr := false } now).updatedItem) ∧
    (∀ us, env.historyInsertErr = true → env.usersResult = some us →
      env.fetched.price ≠ i.price → env.fetched.stock ≠ 0 →
      (collectNotify us env.fetched.price env.fetched.stock).1 ≠ [] →
      (processItem i env now).notifierCalled = true) := by
  constructor
  · obtain ⟨f, iu, hb, ur, fr, ir⟩ := env
    rw [processItem_historyInsertErr_indep i f iu true ur fr ir now]
    exact ⟨rfl, rfl, rfl, rfl, rfl, rfl, rfl⟩
  · intro us h1 h2 h3 h4 h5
    exact processItem_notifierCalled_of_eligible i env now us h2 h3 h4 h5

/-- The environment of the spec scenario with an eligible tracked user and a
failed history append. -/
def envHistoryErr : ItemEnv :=
  { fetched := scenarioFetch
    itemUpdateErr := false
    historyInsertErr := true
    usersResult := some [{ id := 1, trackedItems := [tiExample true 100000],
                           devices := [{ deviceID := "d1", fcmToken := "t1" }] }]
    fcmResult := some { success := 1, failure := 0 }
    incrementResult := some 1 }

/-- Witness for C6: with the history insert failing, the eligible user is
still dispatched to. -/
theorem history_append_failure_no_suppression_witness :
    (processItem scenarioItem envHistoryErr 7).notifierCalled = true :=
  (history_append_failure_no_suppression scenarioItem envHistoryErr 7).2
    [{ id := 1, trackedItems := [tiExample true 100000],
       devices := [{ deviceID := "d1", fcmToken := "t1" }] }]
    rfl rfl (by decide) (by decide) (by decide)

/-- Claim C7: the notification-counter increment is attempted only after the
Notifier call has returned successfully; a Notifier error means no increment
for that batch; when the store reports a modifiedCount, a mismatch with the
number of submitted user IDs is logged exactly when the counts differ, and
the batch loop still processes every item. -/
theorem increment_after_notifier :
    (∀ (i : Item) (env : ItemEnv) (now : Nat),
      (env.fcmResult = none →
        (processItem i env now).incrementAttempted = false ∧
        (processItem i env now).incremented = false) ∧
      ((processItem i env now).incrementAttempted = true →
        (processItem i env now).notifierCalled = true ∧ env.fcmResult ≠ none) ∧
      (∀ m, env.incrementResult = some m →
        (processItem i env now).incrementAttempted = true →
        (processItem i env now).incremented = true ∧
        (processItem i env now).mismatchLogged =
          decide (m ≠ ((processItem i env now).notifiedUserIDs.length : Int)))) ∧
    (∀ (batch : List (Item × ItemEnv)) (now : Nat),
      (processBatch batch now).length = batch.length) := by
  constructor
  · intro i env now
    obtain ⟨f, iu, hb, ur, fr, ir⟩ := env
    simp only [processItem]
    by_cases h1 : f.price = i.price
    · simp [h1]
    · by_cases h2 : f.stock = 0
      · simp [h1, h2]
      · simp only [h1, h2, ne_eq, not_false_iff, if_true, if_false, ite_true, ite_false]
        cases ur with
        | none => simp
        | some us =>
          by_cases h3 : (collectNotify us f.price f.stock).1.length = 0
          · simp [h3]
          · cases fr with
            | none => simp [h3]
            | some r =>
              cases ir with
              | none => simp [h3]
              | some m => simp [h3]
  · intro batch now
    simp [processBatch]

/-- The reconciliation-mismatch environment: three eligible users with
tokens are targeted, the Notifier succeeds, and the store reports
modifiedCount 2. -/
def envMismatch : ItemEnv :=
  { fetched := scenarioFetch
    itemUpdateErr := false
    historyInsertErr := false
    usersResult := some
      [{ id := 1, trackedItems := [tiExample true 100000],
         devices := [{ deviceID := "d1", fcmToken := "t1" }] },
       { id := 2, trackedItems := [tiExample true 100000],
         devices := [{ deviceID := "d2", fcmToken := "t2" }] },
       { id := 3, trackedItems := [tiExample true 100000],
         devices := [{ deviceID := "d3", fcmToken := "t3" }] }]
    fcmResult := some { success := 3, failure := 0 }
    incrementResult := some 2 }

/-- Witness for C7: with three users targeted and modifiedCount 2 the
mismatch is logged (and the increment did run); with a failed Notifier call
no increment is attempted. -/
theorem increment_after_notifier_witness :
    (processItem scenarioItem envMismatch 7).mismatchLogged = true ∧
    (processItem scenarioItem { envMismatch with fcmResult := none } 7).incrementAttempted
      = false := by
  have h := (increment_after_notifier.1 scenarioItem envMismatch 7).2.2 2 rfl (by decide)
  refine ⟨h.2.trans (by decide), ?_⟩
  exact ((increment_after_notifier.1 scenarioItem
    { envMismatch with fcmResult := none } 7).1 rfl).1

theorem collectNotify_mem_ids (us : List UserSubs) (p s : Int) :
    ∀ i, i ∈ (collectNotify us p s).1 →
      ∃ u, u ∈ us ∧ u.id = i ∧
        ∃ d, d ∈ u.devices ∧ d.fcmToken ≠ "" ∧
          d.fcmToken ∈ (collectNotify us p s).2 := by
  induction us with
  | nil => intro i h; simp [collectNotify] at h
  | cons u rest ih =>
    intro i h
    simp only [collectNotify] at h ⊢
    by_cases hel : userEligible u p s
    · by_cases hut : userTokens u = []
      · rw [if_pos hel, if_pos hut] at h ⊢
        obtain ⟨u', hu', hid, d, hd, hne, htok⟩ := ih i h
        exact ⟨u', List.mem_cons_of_mem u hu', hid, d, hd, hne, htok⟩
      · rw [if_pos hel, if_neg hut] at h ⊢
        rcases List.mem_cons.mp h with heq | hmem
        · obtain ⟨t, ht⟩ := List.exists_mem_of_ne_nil _ hut
          have ht' := ht
          unfold userTokens at ht'
          obtain ⟨d, hd, hdt⟩ := List.exists_of_mem_map ht'
          have hdmem := (List.mem_filter.mp hd).1
          have hdne : d.fcmToken ≠ "" := by
            have := (List.mem_filter.mp hd).2
            simpa using this
          refine ⟨u, List.mem_cons_self u rest, heq.symm, d, hdmem, hdne, ?_⟩
          exact List.mem_append_left _ (hdt ▸ ht)
        · obtain ⟨u', hu', hid, d, hd, hne, htok⟩ := ih i hmem
          exact ⟨u', List.mem_cons_of_mem u hu', hid, d, hd, hne,
            List.mem_append_right _ htok⟩
    · rw [if_neg hel] at h ⊢
      obtain ⟨u', hu', hid, d, hd, hne, htok⟩ := ih i h
      exact ⟨u', List.mem_cons_of_mem u hu', hid, d, hd, hne, htok⟩

/-- Claim C8: every user ID submitted for the counter increment contributed
at least one non-empty FCM token to the dispatched batch; hence, when the
returned users carry pairwise distinct IDs, a user none of whose devices
carries a non-empty token is excluded from the notified set. -/
theorem tokenless_user_excluded (us : List UserSubs) (p s : Int) :
    (∀ i, i ∈ (collectNotify us p s).1 →
      ∃ u, u ∈ us ∧ u.id = i ∧
        ∃ d, d ∈ u.devices ∧ d.fcmToken ≠ "" ∧
          d.fcmToken ∈ (collectNotify us p s).2) ∧
    ((us.map UserSubs.id).Nodup →
      ∀ u, u ∈ us → (∀ d, d ∈ u.devices → d.fcmToken = "") →
        u.id ∉ (collectNotify us p s).1) := by
  refine ⟨collectNotify_mem_ids us p s, ?_⟩
  intro hnd u hu hall hmem
  obtain ⟨u', hu', hid, d, hd, hne, _⟩ := collectNotify_mem_ids us p s u.id hmem
  have huu : u' = u := List.inj_on_of_nodup_map hnd hu' hu hid
  exact hne (hall d (huu ▸ hd))

/-- A user with no non-empty token, used by the C8 witness. -/
def userNoTokens : UserSubs :=
  { id := 1, trackedItems := [tiExample true 100000],
    devices := [{ deviceID := "d1", fcmToken := "" }] }

/-- A user with one non-empty token, used by the C8 witness. -/
def userWithToken : UserSubs :=
  { id := 2, trackedItems := [tiExample true 100000],
    devices := [{ deviceID := "d2", fcmToken := "t2" }] }

/-- Witness for C8: with one token-less eligible user and one token-carrying
eligible user, the token-less user is excluded from the notified IDs. -/
theorem tokenless_user_excluded_witness :
    userNoTokens.id ∉ (collectNotify [userNoTokens, userWithToken] 90000 5).1 :=
  (tokenless_user_excluded [userNoTokens, userWithToken] 90000 5).2
    (by decide) userNoTokens (by simp) (by decide)

/-- Mirror of model.ItemHistory (internal/model/itemHistory.go), the fields
written by the pipeline. -/
structure ItemHistoryRecord where
  itemID : Nat
  price : Int
  stock : Int
  timestamp : Nat
deriving Repr, DecidableEq

/-- One Item together with its slice of the append-only History Store. -/
structure SysState where
  item : Item
  history : List ItemHistoryRecord
deriving Repr, DecidableEq

/-- The two merge paths of the repository that act on an already existing
Item: a background fetchData pass (internal/server/fetcher.go lines 52-68:
UpdateWith + ItemUpdate + ItemHistoryInsert), and a foreground itemAdd or
itemCheck request hitting the existing-item branch
(internal/server/itemHandlers.go: i.UpdateWith(ecommerceItem) + ItemUpdate,
with no ItemHistoryInsert on that branch).  Both store writes are taken to
succeed. -/
inductive FetchOp where
  | scheduled (fetched : Item) (now : Nat)
  | addOrCheck (fetched : Item) (now : Nat)
deriving Repr, DecidableEq

/-- The wall-clock time at which an operation runs. -/
def FetchOp.time : FetchOp → Nat
  | scheduled _ n => n
  | addOrCheck _ n => n

/-- Whether the operation is a background fetchData pass. -/
def FetchOp.isScheduled : FetchOp → Bool
  | scheduled _ _ => true
  | addOrCheck _ _ => false

/-- Effect of one merge operation on the Item and its history slice.  The
background path appends the record fetchData builds (ItemID of the stored
item, fetched price and stock, timestamp now); the foreground existing-item
path appends nothing. -/
def applyFetchOp (st : SysState) : FetchOp → SysState
  | FetchOp.scheduled f now =>
    { item := st.item.updateWith f now
      history := st.history ++ [⟨st.item.id, f.price, f.stock, now⟩] }
  | FetchOp.addOrCheck f now =>
    { item := st.item.updateWith f now
      history := st.history }

def runFetchOps (st : SysState) (ops : List FetchOp) : SysState :=
  ops.foldl applyFetchOp st

/-- State created by the itemAdd insert branch
(internal/server/itemHandlers.go): extrema initialized to the first
observed price and one ItemHistory record inserted. -/
def itemAddCreate (fetched : Item) (now : Nat) : SysState :=
  { item := itemCreateInit fetched
    history := [⟨fetched.id, fetched.price, fetched.stock, now⟩] }

/-- The history records contributed by a list of operations (only the
background ones append). -/
def schedRecords (itemID : Nat) : List FetchOp → List ItemHistoryRecord
  | [] => []
  | FetchOp.scheduled f now :: rest =>
      ⟨itemID, f.price, f.stock, now⟩ :: schedRecords itemID rest
  | FetchOp.addOrCheck _ _ :: rest => schedRecords itemID rest

theorem updateWith_id (i new : Item) (now : Nat) :
    (i.updateWith new now).id = i.id := by
  unfold Item.updateWith
  split <;> rfl

theorem applyFetchOp_id (st : SysState) (op : FetchOp) :
    (applyFetchOp st op).item.id = st.item.id := by
  cases op <;> simp [applyFetchOp, updateWith_id]

theorem runFetchOps_history (ops : List FetchOp) (st : SysState) :
    (runFetchOps st ops).history = st.history ++ schedRecords st.item.id ops := by
  induction ops generalizing st with
  | nil => simp [runFetchOps, schedRecords]
  | cons op rest ih =>
    have hstep : runFetchOps st (op :: rest) = runFetchOps (applyFetchOp st op) rest := rfl
    rw [hstep, ih (applyFetchOp st op)]
    cases op with
    | scheduled f now =>
      simp [applyFetchOp, schedRecords, updateWith_id]
    | addOrCheck f now =>
      simp [applyFetchOp, schedRecords, updateWith_id]

theorem schedRecords_length (itemID : Nat) (ops : List FetchOp) :
    (schedRecords itemID ops).length = (ops.filter FetchOp.isScheduled).length := by
  induction ops with
  | nil => rfl
  | cons op rest ih =>
    cases op <;> simp [schedRecords, FetchOp.isScheduled, List.filter, ih]

theorem schedRecords_timestamps (itemID : Nat) (ops : List FetchOp) :
    ((schedRecords itemID ops).map ItemHistoryRecord.timestamp).Sublist
      (ops.map FetchOp.time) := by
  induction ops with
  | nil => simp [schedRecords]
  | cons op rest ih =>
    cases op with
    | scheduled f now =>
      simpa [schedRecords, FetchOp.time] using List.Sublist.cons₂ now ih
    | addOrCheck f now =>
      simpa [schedRecords, FetchOp.time] using List.Sublist.cons now ih

/-- Counterexample to claim C5 as stated: starting from a freshly created
Item (creation inserts one history record) and performing two further
merges through the foreground add/check path, the History Store holds one
record, not one per merge: with N = 2 UpdateWith merges after creation
(N = 3 counting the creating fetch itself), the count is 1. -/
theorem history_per_merge_counterexample :
    (runFetchOps (itemAddCreate scenarioItem 0)
      [FetchOp.addOrCheck scenarioFetch 1,
       FetchOp.addOrCheck scenarioItem 2]).history.length = 1 ∧
    (1 : Nat) ≠ 2 ∧ (1 : Nat) ≠ 3 := by
  refine ⟨?_, by decide, by decide⟩
  rfl

/-- Claim C5 as amended: the ledger is append-only (every operation only
appends to the history, and a background merge appends exactly one record
even when price and stock are unchanged), creation inserts one record, the
record count after any run equals 1 plus the number of background merges
(foreground add/check merges append nothing), and when the operation times
are non-decreasing from the creation time the stored timestamps are
non-decreasing. -/
theorem history_ledger_amended (f : Item) (t0 : Nat) (ops : List FetchOp)
    (hmono : (t0 :: ops.map FetchOp.time).Pairwise (· ≤ ·)) :
    (runFetchOps (itemAddCreate f t0) ops).history.length =
      1 + (ops.filter FetchOp.isScheduled).length ∧
    (∃ suffix, (runFetchOps (itemAddCreate f t0) ops).history =
      (itemAddCreate f t0).history ++ suffix) ∧
    (∀ (st : SysState) (op : FetchOp),
      ∃ r, (applyFetchOp st op).history = st.history ++ r) ∧
    (∀ (st : SysState) (f' : Item) (now : Nat),
      (applyFetchOp st (FetchOp.scheduled f' now)).history.length =
        st.history.length + 1) ∧
    ((runFetchOps (itemAddCreate f t0) ops).history.map
      ItemHistoryRecord.timestamp).Pairwise (· ≤ ·) := by
  refine ⟨?_, ?_, ?_, ?_, ?_⟩
  · rw [runFetchOps_history]
    simp [itemAddCreate, schedRecords_length, Nat.add_comm]
  · exact ⟨schedRecords (itemAddCreate f t0).item.id ops,
      runFetchOps_history ops (itemAddCreate f t0)⟩
  · intro st op
    cases op with
    | scheduled f' now => exact ⟨[⟨st.item.id, f'.price, f'.stock, now⟩], rfl⟩
    | addOrCheck f' now => exact ⟨[], (List.append_nil _).symm⟩
  · intro st f' now
    simp [applyFetchOp]
  · rw [runFetchOps_history]
    have hsub : (((itemAddCreate f t0).history ++
        schedRecords (itemAddCreate f t0).item.id ops).map
          ItemHistoryRecord.timestamp).Sublist (t0 :: ops.map FetchOp.time) := by
      simp only [itemAddCreate, List.map_append]
      exact List.Sublist.cons₂ t0 (schedRecords_timestamps _ ops)
    exact List.Pairwise.sublist hsub hmono

/-- Witness for the amended C5: creation at time 0 followed by a background
merge at time 1, a foreground merge at time 2 and a background merge at
time 3 yields exactly three records with non-decreasing timestamps. -/
theorem history_ledger_amended_witness :
    (runFetchOps (itemAddCreate scenarioItem 0)
      [FetchOp.scheduled scenarioFetch 1,
       FetchOp.addOrCheck scenarioFetch 2,
       FetchOp.scheduled scenarioItem 3]).history.length = 3 ∧
    ((runFetchOps (itemAddCreate scenarioItem 0)
      [FetchOp.scheduled scenarioFetch 1,
       FetchOp.addOrCheck scenarioFetch 2,
       FetchOp.scheduled scenarioItem 3]).history.map
        ItemHistoryRecord.timestamp).Pairwise (· ≤ ·) := by
  have h := history_ledger_amended scenarioItem 0
    [FetchOp.scheduled scenarioFetch 1,
     FetchOp.addOrCheck scenarioFetch 2,
     FetchOp.scheduled scenarioItem 3] (by decide)
  exact ⟨h.1.trans (by decide), h.2.2.2.2⟩

/-- Mirror of model.User (src/unnamed/part_013), the fields the subscription
operations touch. -/
structure User where
  id : Nat
  name : String
  email : String
  devices : List Device
  trackedItems : List TrackedItem
  createdAt : Nat
  updatedAt : Nat
deriving Repr, DecidableEq

/-- The $set document of the update branch of UserTrackedItemUpdateOrAdd
(internal/database/user.go lines 61-71), applied to the matched
tracked_items element: it overwrites price_lower_threshold,
notification_enabled, notification_count and updated_at. -/
def trackedItemUserSet (old sub : TrackedItem) (now : Nat) : TrackedItem :=
  { old with
    priceLowerThreshold := sub.priceLowerThreshold
    notificationEnabled := sub.notificationEnabled
    notificationCount := sub.notificationCount
    updatedAt := now }

/-- The $set / $inc of UserTrackedItemNotificationCountIncrement
(internal/database/user.go lines 141-161), applied to the matched
tracked_items element. -/
def trackedItemIncrement (t : TrackedItem) (now : Nat) : TrackedItem :=
  { t with
    lastNotifiedAt := now
    updatedAt := now
    notificationCount := t.notificationCount + 1
    notificationCountTotal := t.notificationCountTotal + 1 }

/-- Mongo positional-$ semantics: apply f to the first array element whose
item_id matches. -/
def updateFirstMatching (itemID : Nat) (f : TrackedItem → TrackedItem) :
    List TrackedItem → List TrackedItem
  | [] => []
  | x :: xs =>
    if x.itemID = itemID then f x :: xs
    else x :: updateFirstMatching itemID f xs

/-- Insertion step for sorting by updated_at descending. -/
def insertByUpdatedDesc (t : TrackedItem) : List TrackedItem → List TrackedItem
  | [] => [t]
  | x :: xs =>
    if x.updatedAt ≤ t.updatedAt then t :: x :: xs
    else x :: insertByUpdatedDesc t xs

/-- Mongo $push $sort {updated_at: -1} semantics (the relative order of
equal keys is unspecified in the source system; this model picks a fixed
insertion sort). -/
def sortByUpdatedDesc : List TrackedItem → List TrackedItem
  | [] => []
  | x :: xs => insertByUpdatedDesc x (sortByUpdatedDesc xs)

/-- Mirror of UserTrackedItemUpdateOrAdd (internal/database/user.go lines
56-116): if a tracked_items element with the submitted item_id exists,
apply the $set of the update branch to the first match and re-sort by
updated_at descending; otherwise push the submitted TrackedItem (created_at
and updated_at stamped now), sort by updated_at descending and keep the
first 25. -/
def userTrackedItemUpdateOrAdd (u : User) (ti : TrackedItem) (now : Nat) : User :=
  if u.trackedItems.any (fun x => x.itemID = ti.itemID) then
    { u with
      trackedItems := sortByUpdatedDesc
        (updateFirstMatching ti.itemID (fun old => trackedItemUserSet old ti now)
          u.trackedItems)
      updatedAt := now }
  else
    { u with
      trackedItems :=
        (sortByUpdatedDesc
          ({ ti with createdAt := now, updatedAt := now } :: u.trackedItems)).take 25
      updatedAt := now }

/-- Mirror of UserTrackedItemRemove (internal/database/user.go lines
118-139): $pull of the tracked_items elements with the given item_id. -/
def userTrackedItemRemove (u : User) (itemID : Nat) (now : Nat) : User :=
  { u with
    trackedItems := u.trackedItems.filter (fun x => x.itemID ≠ itemID)
    updatedAt := now }

/-- The TrackedItem the itemUpdate handler submits
(internal/server/notifier.go lines 433-438): threshold and enabled flag
from the request, NotificationCount 0, every other field the Go zero
value. -/
def itemUpdateSubmitted (itemOID : Nat) (threshold : Int) (enabled : Bool) :
    TrackedItem :=
  { itemID := itemOID, priceLowerThreshold := threshold,
    notificationEnabled := enabled, notificationCount := 0,
    notificationCountTotal := 0, lastNotifiedAt := 0, createdAt := 0,
    updatedAt := 0 }

theorem mem_insertByUpdatedDesc {a t : TrackedItem} {l : List TrackedItem} :
    a ∈ insertByUpdatedDesc t l → a = t ∨ a ∈ l := by
  induction l with
  | nil => intro h; simpa [insertByUpdatedDesc] using h
  | cons x xs ih =>
    intro h
    simp only [insertByUpdatedDesc] at h
    split at h
    · rcases List.mem_cons.mp h with h1 | h2
      · exact Or.inl h1
      · exact Or.inr h2
    · rcases List.mem_cons.mp h with h1 | h2
      · exact Or.inr (List.mem_cons.mpr (Or.inl h1))
      · rcases ih h2 with h3 | h4
        · exact Or.inl h3
        · exact Or.inr (List.mem_cons.mpr (Or.inr h4))

theorem mem_sortByUpdatedDesc {a : TrackedItem} {l : List TrackedItem} :
    a ∈ sortByUpdatedDesc l → a ∈ l := by
  induction l with
  | nil => intro h; simp [sortByUpdatedDesc] at h
  | cons x xs ih =>
    intro h
    simp only [sortByUpdatedDesc] at h
    rcases mem_insertByUpdatedDesc h with h1 | h2
    · exact List.mem_cons.mpr (Or.inl h1)
    · exact List.mem_cons.mpr (Or.inr (ih h2))

theorem mem_updateFirstMatching {a : TrackedItem} {itemID : Nat}
    {f : TrackedItem → TrackedItem} {l : List TrackedItem} :
    a ∈ updateFirstMatching itemID f l → ∃ x, x ∈ l ∧ (a = x ∨ a = f x) := by
  induction l with
  | nil => intro h; simp [updateFirstMatching] at h
  | cons x xs ih =>
    intro h
    simp only [updateFirstMatching] at h
    split at h
    · rcases List.mem_cons.mp h with h1 | h2
      · exact ⟨x, List.mem_cons_self x xs, Or.inr h1⟩
      · exact ⟨a, List.mem_cons.mpr (Or.inr h2), Or.inl rfl⟩
    · rcases List.mem_cons.mp h with h1 | h2
      · exact ⟨x, List.mem_cons_self x xs, Or.inl h1⟩
      · obtain ⟨y, hy, hay⟩ := ih h2
        exact ⟨y, List.mem_cons.mpr (Or.inr hy), hay⟩

/-- The concrete user of the C9 counterexample and witness: one existing
subscription with notificationCount 5, notificationCountTotal 9 and
lastNotifiedAt 4. -/
def tiC9 : TrackedItem :=
  { itemID := 1, priceLowerThreshold := 100000, notificationEnabled := true,
    notificationCount := 5, notificationCountTotal := 9, lastNotifiedAt := 4,
    createdAt := 1, updatedAt := 2 }

def userC9 : User :=
  { id := 1, name := "u", email := "u@example.com", devices := [],
    trackedItems := [tiC9], createdAt := 0, updatedAt := 0 }

/-- Counterexample to claim C9 as stated: a user-initiated itemUpdate on an
existing TrackedItem with notificationCount 5 resubmits NotificationCount 0
and the update branch of UserTrackedItemUpdateOrAdd $set-s
notification_count to it, so the counter is reset to 0 rather than left
unchanged. -/
theorem user_update_resets_notification_count :
    ((userTrackedItemUpdateOrAdd userC9 (itemUpdateSubmitted 1 50000 true)
        10).trackedItems.map TrackedItem.notificationCount) = [0] ∧
    (userC9.trackedItems.map TrackedItem.notificationCount) = [5] := by
  constructor <;> rfl

/-- Claim C9 as amended: user-facing subscription create/update/remove
operations never change the notificationCountTotal or lastNotifiedAt of an
existing TrackedItem (only the reconciliation increment touches them), but
the update branch does overwrite notificationCount with the submitted
value, which the handlers always submit as 0 — a reset, not a
preservation. -/
theorem user_ops_preserve_reconciliation_fields (u : User) (ti : TrackedItem)
    (now : Nat) :
    (∀ y, y ∈ (userTrackedItemUpdateOrAdd u ti now).trackedItems →
      (∃ x, x ∈ u.trackedItems ∧
        y.notificationCountTotal = x.notificationCountTotal ∧
        y.lastNotifiedAt = x.lastNotifiedAt ∧
        (y = x ∨ y = trackedItemUserSet x ti now)) ∨
      y = { ti with createdAt := now, updatedAt := now }) ∧
    (∀ y, y ∈ (userTrackedItemRemove u ti.itemID now).trackedItems →
      y ∈ u.trackedItems) ∧
    (∀ old, (trackedItemUserSet old ti now).notificationCountTotal =
        old.notificationCountTotal ∧
      (trackedItemUserSet old ti now).lastNotifiedAt = old.lastNotifiedAt ∧
      (trackedItemUserSet old ti now).notificationCount =
        ti.notificationCount) ∧
    (∀ (a : Nat) (b : Int) (c : Bool),
      (itemUpdateSubmitted a b c).notificationCount = 0) := by
  refine ⟨?_, ?_, ?_, ?_⟩
  · intro y hy
    unfold userTrackedItemUpdateOrAdd at hy
    split at hy
    · simp only at hy
      obtain ⟨x, hx, hyx⟩ := mem_updateFirstMatching (mem_sortByUpdatedDesc hy)
      rcases hyx with h1 | h2
      · exact Or.inl ⟨x, hx, by rw [h1], by rw [h1], Or.inl h1⟩
      · exact Or.inl ⟨x, hx, by rw [h2]; rfl, by rw [h2]; rfl, Or.inr h2⟩
    · simp only at hy
      have hy' := mem_sortByUpdatedDesc ((List.take_sublist 25 _).subset hy)
      rcases List.mem_cons.mp hy' with h1 | h2
      · exact Or.inr h1
      · exact Or.inl ⟨y, h2, rfl, rfl, Or.inl rfl⟩
  · intro y hy
    unfold userTrackedItemRemove at hy
    simp only at hy
    exact (List.mem_filter.mp hy).1
  · intro old
    exact ⟨rfl, rfl, rfl⟩
  · intro a b c
    rfl

/-- The element the C9 witness expects after the user-facing update:
threshold and enabled flag overwritten, notificationCount reset to the
submitted 0, notificationCountTotal and lastNotifiedAt untouched. -/
def userC9Updated : TrackedItem :=
  { itemID := 1, priceLowerThreshold := 50000, notificationEnabled := true,
    notificationCount := 0, notificationCountTotal := 9, lastNotifiedAt := 4,
    createdAt := 1, updatedAt := 10 }

/-- Witness for the amended C9: applying the theorem to the concrete user
shows the surviving element keeps notificationCountTotal 9 and
lastNotifiedAt 4 from the original subscription. -/
theorem user_ops_preserve_reconciliation_fields_witness :
    (∃ x, x ∈ userC9.trackedItems ∧
      userC9Updated.notificationCountTotal = x.notificationCountTotal ∧
      userC9Updated.lastNotifiedAt = x.lastNotifiedAt ∧
      (userC9Updated = x ∨
        userC9Updated = trackedItemUserSet x (itemUpdateSubmitted 1 50000 true) 10)) ∨
    userC9Updated = { itemUpdateSubmitted 1 50000 true with
      createdAt := 10, updatedAt := 10 } :=
  (user_ops_preserve_reconciliation_fields userC9
    (itemUpdateSubmitted 1 50000 true) 10).1 userC9Updated (by decide)

/-- The notify gate of the fetchData iteration that compares against the
stored Item price (internal/server/fetcher.go lines 70-74). -/
def notifyGateStored (fetched stored : Item) : Bool :=
  decide (fetched.price ≠ stored.price) && !(decide (fetched.stock = 0))

/-- The notify gate of the fetchData iteration that compares against the
latest ItemHistory record (src/unnamed/part_005 lines 106-135). -/
def notifyGateHistory (fetched : Item) (lastIH : ItemHistoryRecord) : Bool :=
  decide (fetched.price ≠ lastIH.price) && !(decide (fetched.stock = 0))

theorem processItem_subsLookup (i : Item) (env : ItemEnv) (now : Nat) :
    (processItem i env now).subsLookup = notifyGateStored env.fetched i := by
  obtain ⟨f, iu, hb, ur, fr, ir⟩ := env
  simp only [processItem, notifyGateStored]
  by_cases h1 : f.price = i.price
  · simp [h1]
  · by_cases h2 : f.stock = 0
    · simp [h1, h2]
    · simp only [h1, h2, ne_eq, not_false_iff, if_true, if_false, ite_true,
        ite_false, decide_not]
      cases ur with
      | none => simp [h1, h2]
      | some us =>
        by_cases h3 : (collectNotify us f.price f.stock).1.length = 0
        · simp [h1, h2, h3]
        · cases fr with
          | none => simp [h1, h2, h3]
          | some r =>
            cases ir with
            | none => simp [h1, h2, h3]
            | some m => simp [h1, h2, h3]

/-- Claim C10: the two scheduler iterations decide the notify gate
equivalently whenever the stored Item price agrees with the latest
ItemHistory price (which holds when the previous cycle persisted both), and
the gate compared against the stored Item is exactly the condition under
which the pipeline reads the Subscription Store. -/
theorem notify_gate_equivalence :
    (∀ (fetched stored : Item) (lastIH : ItemHistoryRecord),
      stored.price = lastIH.price →
      notifyGateStored fetched stored = notifyGateHistory fetched lastIH) ∧
    (∀ (i : Item) (env : ItemEnv) (now : Nat),
      (processItem i env now).subsLookup = notifyGateStored env.fetched i) := by
  constructor
  · intro fetched stored lastIH h
    unfold notifyGateStored notifyGateHistory
    rw [h]
  · exact processItem_subsLookup

/-- Witness for C10: at the spec scenario with a latest history record of
price 100000 matching the stored price, both gates agree. -/
theorem notify_gate_equivalence_witness :
    notifyGateStored scenarioFetch scenarioItem =
      notifyGateHistory scenarioFetch ⟨1, 100000, 5, 0⟩ :=
  notify_gate_equivalence.1 scenarioFetch scenarioItem ⟨1, 100000, 5, 0⟩ (by decide)

end PriceTracker
